import Mathlib

/- A shallow embedding of src/model/token.go from the one-api repository.
   The relational store (the gorm DB) is modelled as explicit state: the rows
   of the tokens table and the rows of the accounts (users) table.  A gorm
   relative update (gorm.Expr with field plus delta) becomes a pure map over
   the rows.  A Go function returning error becomes a function returning the
   new store state paired with an optional error.  A Go panic (nil pointer
   dereference, failed type assertion, send on a closed channel) is modelled
   as Option.none at the result type. -/

namespace OneApi

/-- The Token row of src/model/token.go (struct Token).  Integers live in the
    store, whose arithmetic is modelled as unbounded Int (the updates are run
    by the database, not by Go). -/
structure Token where
  id : Int
  userId : Int
  key : String
  status : Int
  name : String
  createdTime : Int
  accessedTime : Int
  expiredTime : Int
  remainQuota : Int
  unlimitedQuota : Bool
  usedQuota : Int
deriving DecidableEq

/-- Modelled from the spec: the account quota row, a remaining/used pair per
    owning account (spec section 3, Account quota); the users table code is
    not under src/. -/
structure UserRow where
  id : Int
  remaining : Int
  used : Int
deriving DecidableEq

/-- The durable store: the tokens table and the accounts table. -/
structure DBState where
  tokens : List Token
  users : List UserRow
deriving DecidableEq

/-- The errors returned by the modelled functions, one constructor per
    distinct Go error of token.go (plus the gorm record-not-found error and a
    generic transient store failure for SelectUpdate). -/
inductive GoErr where
  | noKeyProvided       -- ValidateUserToken, empty key
  | invalidToken        -- ValidateUserToken, key lookup failed
  | statusNotAvailable  -- ValidateUserToken, status is not Enabled
  | tokenExpired        -- ValidateUserToken, token expired
  | tokenExhausted      -- ValidateUserToken, quota used up
  | emptyId             -- GetTokenById with id == 0
  | recordNotFound      -- gorm ErrRecordNotFound from DB.First
  | negativeQuota       -- Increase/DecreaseTokenQuota or PreConsume with quota < 0
  | tokenQuotaNotEnough -- PreConsumeTokenQuota, credential quota insufficient
  | userQuotaNotEnough  -- PreConsumeTokenQuota, account quota insufficient
  | storeFailure        -- a transient store error on SelectUpdate
deriving DecidableEq

/-- Modelled from the spec: the credential status enumeration
    {Enabled, Disabled, Expired, Exhausted} (spec section 3); the common
    package holding the constants is not under src/. -/
def TokenStatusEnabled : Int := 1

/-- Modelled from the spec: the Disabled status constant. -/
def TokenStatusDisabled : Int := 2

/-- Modelled from the spec: the Expired status constant. -/
def TokenStatusExpired : Int := 3

/-- Modelled from the spec: the Exhausted status constant. -/
def TokenStatusExhausted : Int := 4

/-- DB.First on the tokens table filtered by id: the first row with the
    given id. -/
def findToken (s : DBState) (id : Int) : Option Token :=
  s.tokens.find? (fun t => t.id == id)

/-- Point lookup of the account row with the given id. -/
def findUser (s : DBState) (uid : Int) : Option UserRow :=
  s.users.find? (fun u => u.id == uid)

/-- The gorm relative update on the tokens table used by Increase/Decrease
    TokenQuota: on every row whose id matches, remain_quota gets dRemain
    added and used_quota gets dUsed added, as one atomic statement. -/
def adjustTokenRows (l : List Token) (id dRemain dUsed : Int) : List Token :=
  l.map fun t =>
    if t.id == id then
      { t with remainQuota := t.remainQuota + dRemain, usedQuota := t.usedQuota + dUsed }
    else t

/-- The same relative update on the accounts table. -/
def adjustUserRows (l : List UserRow) (uid dRemain dUsed : Int) : List UserRow :=
  l.map fun u =>
    if u.id == uid then
      { u with remaining := u.remaining + dRemain, used := u.used + dUsed }
    else u

/-- DecreaseTokenQuota of token.go: rejects a negative quota, otherwise runs
    the atomic relative update remain_quota = remain_quota - quota,
    used_quota = used_quota + quota on the row with the given id (a missing
    row simply matches no rows: no error). -/
def DecreaseTokenQuota (s : DBState) (id quota : Int) : DBState × Option GoErr :=
  if quota < 0 then (s, some .negativeQuota)
  else ({ s with tokens := adjustTokenRows s.tokens id (-quota) quota }, none)

/-- IncreaseTokenQuota of token.go: rejects a negative quota, otherwise runs
    remain_quota = remain_quota + quota, used_quota = used_quota - quota. -/
def IncreaseTokenQuota (s : DBState) (id quota : Int) : DBState × Option GoErr :=
  if quota < 0 then (s, some .negativeQuota)
  else ({ s with tokens := adjustTokenRows s.tokens id quota (-quota) }, none)

/-- Modelled from the spec: DecreaseUserQuota, the account side of the
    lockstep debit (spec sections 3 and 6, ApplyRelativeUpdate): the atomic
    relative update remaining = remaining - quota, used = used + quota on the
    account row; the users code is not under src/. -/
def DecreaseUserQuota (s : DBState) (uid quota : Int) : DBState × Option GoErr :=
  ({ s with users := adjustUserRows s.users uid (-quota) quota }, none)

/-- Modelled from the spec: IncreaseUserQuota, the inverse relative update
    remaining = remaining + quota, used = used - quota on the account row;
    the users code is not under src/. -/
def IncreaseUserQuota (s : DBState) (uid quota : Int) : DBState × Option GoErr :=
  ({ s with users := adjustUserRows s.users uid quota (-quota) }, none)

/-- The Go zero value Token{Id: id}: every other field at its zero value. -/
def emptyTokenRow (id : Int) : Token :=
  { id := id, userId := 0, key := "", status := 0, name := "", createdTime := 0
    accessedTime := 0, expiredTime := 0, remainQuota := 0, unlimitedQuota := false
    usedQuota := 0 }

/-- GetTokenById of token.go.  It returns the pair (pointer, error) exactly as
    Go does: for id == 0 the pointer is nil (none) with an error; for a
    missing row DB.First leaves the destination struct as initialised, so the
    pointer is the zero-value token carrying the requested id, together with
    the record-not-found error; otherwise the found row with no error. -/
def GetTokenById (s : DBState) (id : Int) : Option Token × Option GoErr :=
  if id = 0 then (none, some .emptyId)
  else
    match findToken s id with
    | some t => (some t, none)
    | none => (some (emptyTokenRow id), some .recordNotFound)

/-- Modelled from the spec: GetUserQuota, the point lookup of the account
    aggregate remaining (spec section 6, GetAccountQuota returning remaining
    or NotFound); the users code is not under src/. -/
def GetUserQuota (s : DBState) (uid : Int) : Except GoErr Int :=
  match findUser s uid with
  | some u => .ok u.remaining
  | none => .error .recordNotFound

/-- Modelled from the spec: CacheGetTokenByKey, the credential lookup by key
    used by ValidateUserToken (spec section 6, GetCredential); the cache code
    is not under src/.  Modelled as the store lookup by key. -/
def CacheGetTokenByKey (s : DBState) (key : String) : Option Token :=
  s.tokens.find? (fun t => t.key == key)

/-- SelectUpdate of token.go: persists the accessed_time and status fields of
    the given token onto the row with its id.  The store may fail
    transiently; the Boolean ok selects the outcome (success applies the
    update, failure leaves the store unchanged and reports the error). -/
def SelectUpdate (s : DBState) (t : Token) (ok : Bool) : DBState × Option GoErr :=
  if ok then
    ({ s with tokens := s.tokens.map fun r =>
        if r.id == t.id then { r with accessedTime := t.accessedTime, status := t.status }
        else r }, none)
  else (s, some .storeFailure)

/-- PreConsumeTokenQuota of token.go.  The low-balance email goroutine has no
    effect on any counter and is fire-and-forget, so it is not modelled. -/
def PreConsumeTokenQuota (s : DBState) (tokenId quota : Int) : DBState × Option GoErr :=
  if quota < 0 then (s, some .negativeQuota)
  else
    match GetTokenById s tokenId with
    | (_, some e) => (s, some e)
    | (none, none) => (s, some .recordNotFound)  -- unreachable: no error implies a token
    | (some token, none) =>
      if token.unlimitedQuota = false ∧ token.remainQuota < quota then
        (s, some .tokenQuotaNotEnough)
      else
        match GetUserQuota s token.userId with
        | .error e => (s, some e)
        | .ok userQuota =>
          if userQuota < quota then (s, some .userQuotaNotEnough)
          else
            if token.unlimitedQuota = false then
              match DecreaseTokenQuota s tokenId quota with
              | (s1, some e) => (s1, some e)
              | (s1, none) => DecreaseUserQuota s1 token.userId quota
            else
              DecreaseUserQuota s token.userId quota

/-- PostConsumeTokenQuota of token.go.  The error of GetTokenById is
    discarded (the err variable is immediately overwritten), and the token
    pointer is dereferenced unconditionally: when the pointer is nil (id 0)
    Go panics, modelled as none. -/
def PostConsumeTokenQuota (s : DBState) (tokenId quota : Int) :
    Option (DBState × Option GoErr) :=
  match (GetTokenById s tokenId).1 with
  | none => none  -- nil pointer dereference of token.UserId
  | some token =>
    match (if quota > 0 then DecreaseUserQuota s token.userId quota
           else IncreaseUserQuota s token.userId (-quota)) with
    | (s1, some e) => some (s1, some e)
    | (s1, none) =>
      if token.unlimitedQuota = false then
        some (if quota > 0 then DecreaseTokenQuota s1 tokenId quota
              else IncreaseTokenQuota s1 tokenId (-quota))
      else some (s1, none)

/-- ValidateUserToken of token.go.  The persistOk Boolean is the outcome of
    the SelectUpdate store call persisting a status transition; its error is
    only logged by the Go code, so the returned denial does not depend on it.
    The asynchronous accessed-time refresh on the success path is
    fire-and-forget and does not touch the fields the claims are about, so it
    is not modelled. -/
def ValidateUserToken (s : DBState) (key : String) (now : Int) (persistOk : Bool) :
    Except GoErr Token × DBState :=
  if key = "" then (.error .noKeyProvided, s)
  else
    match CacheGetTokenByKey s key with
    | none => (.error .invalidToken, s)
    | some token =>
      if token.status ≠ TokenStatusEnabled then (.error .statusNotAvailable, s)
      else if token.expiredTime ≠ -1 ∧ token.expiredTime < now then
        (.error .tokenExpired,
          (SelectUpdate s { token with status := TokenStatusExpired } persistOk).1)
      else if token.unlimitedQuota = false ∧ token.remainQuota ≤ 0 then
        (.error .tokenExhausted,
          (SelectUpdate s { token with status := TokenStatusExhausted } persistOk).1)
      else (.ok token, s)

/-- Conversion to Go int32 with wrap-around, as performed by
    int32(toCachedToken.UsedQuota) and by atomic.AddInt32. -/
def toInt32 (x : Int) : Int := (x + 2147483648) % 4294967296 - 2147483648

/-- The Token value Token{Id: id, UsedQuota: used} sent on the intake channel
    and produced by the drain. -/
def mkQuotaToken (id used : Int) : Token :=
  { emptyTokenRow id with usedQuota := used }

/-- One iteration of the intake-consumer loop of offlineUpdateTokenQuota.
    The aggregation map (sync.Map of credential id to a pointer to an int32
    cell) is modelled as an association list of id and cell value.  The Go
    body loads the cell; if absent it stores a fresh cell, but the following
    atomic.AddInt32 is applied to the result of the original Load through the
    type assertion cachedTokenQuota.(*int32), which on the nil interface
    panics: modelled as none.  When the cell exists the delta is added to it
    with int32 wrap-around. -/
def consumeEvent (m : List (Int × Int)) (ev : Token) : Option (List (Int × Int)) :=
  match m.find? (fun c => c.1 == ev.id) with
  | some _ =>
    some (m.map fun c =>
      if c.1 == ev.id then (c.1, toInt32 (c.2 + toInt32 ev.usedQuota)) else c)
  | none => none  -- Store runs, then the assertion on the nil interface panics

/-- sync.Map.Store: sets the key to the given cell value, replacing any
    existing cell for that key. -/
def storeCell (m : List (Int × Int)) (id v : Int) : List (Int × Int) :=
  match m.find? (fun c => c.1 == id) with
  | some _ => m.map fun c => if c.1 == id then (c.1, v) else c
  | none => m ++ [(id, v)]

/-- The drain step of the timer goroutine of offlineUpdateTokenQuota: under
    the lock, Range collects every cell as Token{Id: key, UsedQuota: value}
    and every collected key is deleted, leaving the map empty. -/
def drainAgg (m : List (Int × Int)) : List Token × List (Int × Int) :=
  (m.map (fun c => mkQuotaToken c.1 c.2), [])

/-- The requeue step of the timer goroutine of offlineUpdateTokenQuota: for
    each failed entry, a fresh cell holding its delta is stored under its id
    (sync.Map.Store, which replaces any cell already present for that id). -/
def requeueFailed (m : List (Int × Int)) (fail : List Token) : List (Int × Int) :=
  fail.foldl (fun acc t => storeCell acc t.id t.usedQuota) m

/-- batchConsumeTokenQuota of token.go, modelled against its synchronisation
    structure.  Per entry, the store update is attempted only when UsedQuota
    is nonzero; transient store failures are the oracle failsAt.  Every
    failing task sends the entry on failChan; a collector goroutine drains
    failChan into the result until the channel is closed.  The Go code closes
    failChan right after spawning the tasks: the WaitGroup is incremented and
    decremented but never waited on, so for each failing task the schedule
    decides (sentBeforeClose) whether its send precedes the close.  A send
    that follows the close is a send on a closed channel: a panic, modelled
    as none.  When every failing send precedes the close, the collected list
    holds exactly the failing entries. -/
def batchConsumeTokenQuota (tokens : List Token) (failsAt : Token → Bool)
    (sentBeforeClose : Token → Bool) : Option (List Token) :=
  let failures := tokens.filter fun t => (t.usedQuota != 0) && failsAt t
  if failures.all sentBeforeClose then some failures else none

/-- A sample credential: id 1, owner 1, enabled, never expiring, remaining
    quota 1000, not unlimited. -/
def sampleToken : Token :=
  { id := 1, userId := 1, key := "k1", status := 1, name := "a", createdTime := 0
    accessedTime := 0, expiredTime := -1, remainQuota := 1000, unlimitedQuota := false
    usedQuota := 0 }

/-- A sample store: one credential, one account with remaining 1000. -/
def sampleState : DBState :=
  { tokens := [sampleToken], users := [{ id := 1, remaining := 1000, used := 0 }] }

/-- A sample unlimited credential with remaining quota 100. -/
def unlimToken : Token :=
  { id := 2, userId := 2, key := "k2", status := 1, name := "b", createdTime := 0
    accessedTime := 0, expiredTime := -1, remainQuota := 100, unlimitedQuota := true
    usedQuota := 0 }

/-- A store holding the unlimited credential and its account, remaining 100. -/
def unlimState : DBState :=
  { tokens := [unlimToken], users := [{ id := 2, remaining := 100, used := 0 }] }

/-- A credential with ample quota whose account has little remaining. -/
def poorToken : Token :=
  { id := 3, userId := 3, key := "k3", status := 1, name := "c", createdTime := 0
    accessedTime := 0, expiredTime := -1, remainQuota := 1000, unlimitedQuota := false
    usedQuota := 0 }

/-- A store where the account remaining (100) is below the credential
    remaining (1000). -/
def poorState : DBState :=
  { tokens := [poorToken], users := [{ id := 3, remaining := 100, used := 0 }] }

/-- An enabled credential whose expiry timestamp (10) is in the past at
    now = 100. -/
def expiredToken : Token :=
  { id := 4, userId := 4, key := "k4", status := 1, name := "d", createdTime := 0
    accessedTime := 0, expiredTime := 10, remainQuota := 50, unlimitedQuota := false
    usedQuota := 0 }

/-- A store holding the expired credential. -/
def expiredState : DBState :=
  { tokens := [expiredToken], users := [{ id := 4, remaining := 50, used := 0 }] }

/-- An enabled, unexpired credential with remaining quota 0. -/
def exhaustedToken : Token :=
  { id := 5, userId := 5, key := "k5", status := 1, name := "e", createdTime := 0
    accessedTime := 0, expiredTime := -1, remainQuota := 0, unlimitedQuota := false
    usedQuota := 7 }

/-- A store holding the exhausted credential. -/
def exhaustedState : DBState :=
  { tokens := [exhaustedToken], users := [{ id := 5, remaining := 40, used := 0 }] }

/-- The empty store. -/
def emptyDB : DBState := { tokens := [], users := [] }

/-- Looking up after a conditional row map: when the rewriting function does
    not change whether a row matches, find? commutes with the map. -/
theorem find?_map_ite {α : Type} (p : α → Bool) (f : α → α)
    (hf : ∀ a, p (f a) = p a) (l : List α) :
    (l.map fun a => if p a then f a else a).find? p = (l.find? p).map f := by
  induction l with
  | nil => rfl
  | cons a l ih =>
    by_cases hp : p a = true
    · rw [List.map_cons, if_pos hp, List.find?_cons_of_pos _ (by rw [hf]; exact hp),
        List.find?_cons_of_pos _ hp]
      rfl
    · have hp' : ¬ (p a = true) := hp
      rw [List.map_cons, if_neg hp, List.find?_cons_of_neg _ hp',
        List.find?_cons_of_neg _ hp', ih]

/-- A conditional row map whose rewriting function is the identity leaves the
    table unchanged. -/
theorem map_ite_id {α : Type} (p : α → Bool) (f : α → α)
    (hf : ∀ a, f a = a) (l : List α) :
    (l.map fun a => if p a then f a else a) = l := by
  induction l with
  | nil => rfl
  | cons a l ih =>
    rw [List.map_cons, ih]
    by_cases hp : p a = true
    · rw [if_pos hp, hf]
    · rw [if_neg hp]

/-- A conditional row map matching no row leaves the table unchanged. -/
theorem map_ite_of_find?_none {α : Type} (p : α → Bool) (f : α → α) (l : List α)
    (h : l.find? p = none) :
    (l.map fun a => if p a then f a else a) = l := by
  induction l with
  | nil => rfl
  | cons a l ih =>
    by_cases hp : p a = true
    · rw [List.find?_cons_of_pos _ hp] at h
      exact absurd h (by simp)
    · rw [List.find?_cons_of_neg _ hp] at h
      rw [List.map_cons, if_neg hp, ih h]

/-- The quota relative update on the tokens table, seen through lookup by
    id: the first matching row gets the two deltas added. -/
theorem findToken_adjust (s : DBState) (id dR dU : Int) :
    findToken { s with tokens := adjustTokenRows s.tokens id dR dU } id =
      (findToken s id).map
        (fun t => { t with remainQuota := t.remainQuota + dR, usedQuota := t.usedQuota + dU }) := by
  unfold findToken adjustTokenRows
  exact find?_map_ite (fun t => t.id == id)
    (fun t => { t with remainQuota := t.remainQuota + dR, usedQuota := t.usedQuota + dU })
    (fun _ => rfl) s.tokens

/-- The quota relative update on the accounts table, seen through lookup by
    id. -/
theorem findUser_adjust (users : List UserRow) (tokens : List Token) (uid dR dU : Int) :
    findUser { tokens := tokens, users := adjustUserRows users uid dR dU } uid =
      (findUser { tokens := tokens, users := users } uid).map
        (fun u => { u with remaining := u.remaining + dR, used := u.used + dU }) := by
  unfold findUser adjustUserRows
  exact find?_map_ite (fun u => u.id == uid)
    (fun u => { u with remaining := u.remaining + dR, used := u.used + dU })
    (fun _ => rfl) users

/-- Claim C1 (amended): for every nonzero credential id present in the store
    whose credential is not unlimited, and every non-negative estimatedCost
    at most the credential remaining and at most the owning account
    remaining, PreConsume succeeds and both remaining counters decrease by
    exactly estimatedCost while both used counters increase by
    estimatedCost. -/
theorem preConsume_success (s : DBState) (id q : Int) (t : Token) (u : UserRow)
    (hid : id ≠ 0) (ht : findToken s id = some t) (hut : t.unlimitedQuota = false)
    (hu : findUser s t.userId = some u)
    (h0 : 0 ≤ q) (h1 : q ≤ t.remainQuota) (h2 : q ≤ u.remaining) :
    ∃ s' t' u', PreConsumeTokenQuota s id q = (s', none) ∧
      findToken s' id = some t' ∧ findUser s' t.userId = some u' ∧
      t'.remainQuota = t.remainQuota - q ∧ t'.usedQuota = t.usedQuota + q ∧
      u'.remaining = u.remaining - q ∧ u'.used = u.used + q := by
  have c1 : ¬ q < 0 := by omega
  have c2 : ¬ (t.unlimitedQuota = false ∧ t.remainQuota < q) := by
    rintro ⟨-, h⟩
    omega
  have c3 : ¬ u.remaining < q := by omega
  have hget : GetTokenById s id = (some t, none) := by
    unfold GetTokenById
    rw [if_neg hid, ht]
  have huq : GetUserQuota s t.userId = Except.ok u.remaining := by
    unfold GetUserQuota
    rw [hu]
  have hpre : PreConsumeTokenQuota s id q =
      ({ tokens := adjustTokenRows s.tokens id (-q) q,
         users := adjustUserRows s.users t.userId (-q) q }, none) := by
    unfold PreConsumeTokenQuota
    rw [if_neg c1, hget]
    simp only [huq, if_neg c2, if_neg c3, hut, DecreaseTokenQuota, DecreaseUserQuota,
      if_neg c1, if_true]
    exact if_neg (by rintro ⟨-, h⟩; omega)
  have hft : findToken { tokens := adjustTokenRows s.tokens id (-q) q,
                         users := adjustUserRows s.users t.userId (-q) q } id =
      some { t with remainQuota := t.remainQuota + -q, usedQuota := t.usedQuota + q } := by
    have h := findToken_adjust s id (-q) q
    rw [ht] at h
    exact h
  have hfu : findUser { tokens := adjustTokenRows s.tokens id (-q) q,
                        users := adjustUserRows s.users t.userId (-q) q } t.userId =
      some { u with remaining := u.remaining + -q, used := u.used + q } := by
    have h := findUser_adjust s.users (adjustTokenRows s.tokens id (-q) q) t.userId (-q) q
    rw [h]
    have hu2 : findUser { tokens := adjustTokenRows s.tokens id (-q) q,
                          users := s.users } t.userId = some u := hu
    rw [hu2]
    rfl
  exact ⟨_, _, _, hpre, hft, hfu,
    by show t.remainQuota + -q = t.remainQuota - q; omega, rfl,
    by show u.remaining + -q = u.remaining - q; omega, rfl⟩

/-- Claim C1 witness: the amended claim evaluated on a concrete store with a
    non-unlimited credential, remaining 1000 on both counters, cost 50. -/
theorem preConsume_success_witness :
    findToken sampleState 1 = some sampleToken ∧
    (∃ s' t' u', PreConsumeTokenQuota sampleState 1 50 = (s', none) ∧
      findToken s' 1 = some t' ∧ findUser s' sampleToken.userId = some u' ∧
      t'.remainQuota = sampleToken.remainQuota - 50 ∧
      t'.usedQuota = sampleToken.usedQuota + 50 ∧
      u'.remaining = 1000 - 50 ∧ u'.used = 0 + 50) :=
  ⟨by decide,
    preConsume_success sampleState 1 50 sampleToken { id := 1, remaining := 1000, used := 0 }
      (by decide) (by decide) (by decide) (by decide) (by decide) (by decide) (by decide)⟩

/-- Claim C1 counterexample: the claim as frozen quantifies over every
    credential, but for an unlimited credential with remaining 100 and
    account remaining 100, a cost of 50 satisfies every hypothesis of the
    claim, PreConsume succeeds, and yet the credential remaining counter does
    not decrease (it stays at 100, not 100 - 50): the credential-level
    decrement is skipped for unlimited credentials. -/
theorem preConsume_unlimited_counterexample :
    (0:Int) ≤ 50 ∧
    (findToken unlimState 2).map Token.remainQuota = some 100 ∧
    (findUser unlimState 2).map UserRow.remaining = some 100 ∧
    (PreConsumeTokenQuota unlimState 2 50).2 = none ∧
    (findToken (PreConsumeTokenQuota unlimState 2 50).1 2).map Token.remainQuota = some 100 ∧
    ¬ ((100:Int) = 100 - 50) := by
  decide

/-- Claim C2: PreConsume fails with the invalid-amount error when
    estimatedCost is negative; with the insufficient-credential-quota error
    when the credential is not unlimited and its remaining is below
    estimatedCost; and with the insufficient-account-quota error when the
    credential check passes but the account remaining is below estimatedCost.
    In every such failure the whole store, hence every credential and account
    counter, is unchanged.  Overlapping conditions are decided by the first
    check that fires, in the order the code performs them. -/
theorem preConsume_failure_cases (s : DBState) (id q : Int) :
    (q < 0 → PreConsumeTokenQuota s id q = (s, some .negativeQuota)) ∧
    (∀ t, 0 ≤ q → id ≠ 0 → findToken s id = some t →
      t.unlimitedQuota = false → t.remainQuota < q →
      PreConsumeTokenQuota s id q = (s, some .tokenQuotaNotEnough)) ∧
    (∀ t u, 0 ≤ q → id ≠ 0 → findToken s id = some t →
      (t.unlimitedQuota = true ∨ q ≤ t.remainQuota) →
      findUser s t.userId = some u → u.remaining < q →
      PreConsumeTokenQuota s id q = (s, some .userQuotaNotEnough)) := by
  refine ⟨?_, ?_, ?_⟩
  · intro hq
    unfold PreConsumeTokenQuota
    rw [if_pos hq]
  · intro t h0 hid ht hul hlt
    have hget : GetTokenById s id = (some t, none) := by
      unfold GetTokenById
      rw [if_neg hid, ht]
    unfold PreConsumeTokenQuota
    rw [if_neg (by omega : ¬ q < 0), hget]
    simp [hul, hlt]
  · intro t u h0 hid ht hcase hu hlt
    have hget : GetTokenById s id = (some t, none) := by
      unfold GetTokenById
      rw [if_neg hid, ht]
    have huq : GetUserQuota s t.userId = Except.ok u.remaining := by
      unfold GetUserQuota
      rw [hu]
    have hng : ¬ (t.unlimitedQuota = false ∧ t.remainQuota < q) := by
      rintro ⟨hf, hlt2⟩
      rcases hcase with h | h
      · rw [h] at hf
        cases hf
      · omega
    unfold PreConsumeTokenQuota
    rw [if_neg (by omega : ¬ q < 0), hget]
    simp [huq, hng, hlt]

/-- Claim C2 witness: the three failure cases evaluated on concrete stores: a
    negative cost, a cost of 2000 against credential remaining 1000, and a
    cost of 500 against credential remaining 1000 but account remaining 100;
    each leaves the store untouched. -/
theorem preConsume_failure_cases_witness :
    PreConsumeTokenQuota sampleState 1 (-1) = (sampleState, some .negativeQuota) ∧
    PreConsumeTokenQuota sampleState 1 2000 = (sampleState, some .tokenQuotaNotEnough) ∧
    PreConsumeTokenQuota poorState 3 500 = (poorState, some .userQuotaNotEnough) :=
  ⟨(preConsume_failure_cases sampleState 1 (-1)).1 (by decide),
   (preConsume_failure_cases sampleState 1 2000).2.1 sampleToken
     (by decide) (by decide) (by decide) (by decide) (by decide),
   (preConsume_failure_cases poorState 3 500).2.2 poorToken
     { id := 3, remaining := 100, used := 0 }
     (by decide) (by decide) (by decide) (Or.inr (by decide)) (by decide) (by decide)⟩

/-- Claim C3: for an unlimited credential, PreConsume never fails with the
    credential-quota error, whatever the remaining value and however large or
    negative the estimatedCost; the tokens table is never touched (the
    credential-level decrement is skipped); on success only the account
    counters are adjusted. -/
theorem preConsume_unlimited (s : DBState) (id q : Int) (t : Token)
    (hid : id ≠ 0) (ht : findToken s id = some t) (hu : t.unlimitedQuota = true) :
    (PreConsumeTokenQuota s id q).2 ≠ some .tokenQuotaNotEnough ∧
    (PreConsumeTokenQuota s id q).1.tokens = s.tokens ∧
    ((PreConsumeTokenQuota s id q).2 = none →
      (PreConsumeTokenQuota s id q).1 =
        { s with users := adjustUserRows s.users t.userId (-q) q }) := by
  have hget : GetTokenById s id = (some t, none) := by
    unfold GetTokenById
    rw [if_neg hid, ht]
  have hng : ¬ (t.unlimitedQuota = false ∧ t.remainQuota < q) := by
    rintro ⟨hf, -⟩
    rw [hu] at hf
    cases hf
  by_cases hq : q < 0
  · have h : PreConsumeTokenQuota s id q = (s, some .negativeQuota) := by
      unfold PreConsumeTokenQuota
      rw [if_pos hq]
    rw [h]
    exact ⟨fun hn => GoErr.noConfusion (Option.some.inj hn), rfl,
      fun hn => Option.noConfusion hn⟩
  · cases hfu : findUser s t.userId with
    | none =>
      have huq : GetUserQuota s t.userId = Except.error .recordNotFound := by
        unfold GetUserQuota
        rw [hfu]
      have h : PreConsumeTokenQuota s id q = (s, some .recordNotFound) := by
        unfold PreConsumeTokenQuota
        rw [if_neg hq, hget]
        simp [hng, huq]
      rw [h]
      exact ⟨fun hn => GoErr.noConfusion (Option.some.inj hn), rfl,
        fun hn => Option.noConfusion hn⟩
    | some u =>
      have huq : GetUserQuota s t.userId = Except.ok u.remaining := by
        unfold GetUserQuota
        rw [hfu]
      by_cases hur : u.remaining < q
      · have h : PreConsumeTokenQuota s id q = (s, some .userQuotaNotEnough) := by
          unfold PreConsumeTokenQuota
          rw [if_neg hq, hget]
          simp [hng, huq, hur]
        rw [h]
        exact ⟨fun hn => GoErr.noConfusion (Option.some.inj hn), rfl,
          fun hn => Option.noConfusion hn⟩
      · have h : PreConsumeTokenQuota s id q =
            ({ s with users := adjustUserRows s.users t.userId (-q) q }, none) := by
          unfold PreConsumeTokenQuota
          rw [if_neg hq, hget]
          simp [hng, huq, hur, hu, DecreaseUserQuota]
        rw [h]
        exact ⟨fun hn => Option.noConfusion hn, rfl, fun _ => rfl⟩

/-- Claim C3 witness: the unlimited credential with remaining 100 at cost 50:
    no credential-quota failure, credential row untouched, only the account
    row debited. -/
theorem preConsume_unlimited_witness :
    findToken unlimState 2 = some unlimToken ∧
    ((PreConsumeTokenQuota unlimState 2 50).2 ≠ some .tokenQuotaNotEnough ∧
     (PreConsumeTokenQuota unlimState 2 50).1.tokens = unlimState.tokens ∧
     ((PreConsumeTokenQuota unlimState 2 50).2 = none →
       (PreConsumeTokenQuota unlimState 2 50).1 =
         { unlimState with users := adjustUserRows unlimState.users unlimToken.userId (-50) 50 })) :=
  ⟨by decide, preConsume_unlimited unlimState 2 50 unlimToken (by decide) (by decide) (by decide)⟩

/-- Evaluation of PostConsumeTokenQuota for a present, non-unlimited
    credential: whatever the sign of the adjustment, the net effect is
    remaining minus q and used plus q on both the credential row and the
    account row of its owner. -/
theorem postConsume_eval_limited (s : DBState) (id q : Int) (t : Token)
    (hid : id ≠ 0) (ht : findToken s id = some t) (hut : t.unlimitedQuota = false) :
    PostConsumeTokenQuota s id q =
      some ({ tokens := adjustTokenRows s.tokens id (-q) q,
              users := adjustUserRows s.users t.userId (-q) q }, none) := by
  have hget : GetTokenById s id = (some t, none) := by
    unfold GetTokenById
    rw [if_neg hid, ht]
  unfold PostConsumeTokenQuota
  rw [hget]
  by_cases hq : q > 0
  · simp [hq, DecreaseUserQuota, DecreaseTokenQuota, hut, show ¬ q < 0 by omega]
  · simp [hq, IncreaseUserQuota, IncreaseTokenQuota, hut, neg_neg,
      show ¬ -q < 0 by omega]

/-- Evaluation of PostConsumeTokenQuota for a present, unlimited credential:
    only the account row is adjusted. -/
theorem postConsume_eval_unlimited (s : DBState) (id q : Int) (t : Token)
    (hid : id ≠ 0) (ht : findToken s id = some t) (hut : t.unlimitedQuota = true) :
    PostConsumeTokenQuota s id q =
      some ({ s with users := adjustUserRows s.users t.userId (-q) q }, none) := by
  have hget : GetTokenById s id = (some t, none) := by
    unfold GetTokenById
    rw [if_neg hid, ht]
  unfold PostConsumeTokenQuota
  rw [hget]
  by_cases hq : q > 0
  · simp [hq, DecreaseUserQuota, hut]
  · simp [hq, IncreaseUserQuota, hut, neg_neg]

/-- Claim C4 counterexample: on a concrete store (credential 1 and account 1
    both at remaining 1000), PreConsume(1, 100) succeeds and then
    PostConsume(1, 80) also succeeds, but the final remaining is 820 on both
    counters: the net debit is 180, not 80.  PostConsumeTokenQuota treats its
    argument as a signed delta to apply on top of the pre-debit (a positive
    value debits further), not as the actual cost. -/
theorem preThenPost_counterexample :
    PreConsumeTokenQuota sampleState 1 100 =
      ({ tokens := [{ sampleToken with remainQuota := 900, usedQuota := 100 }],
         users := [{ id := 1, remaining := 900, used := 100 }] }, none) ∧
    PostConsumeTokenQuota
        { tokens := [{ sampleToken with remainQuota := 900, usedQuota := 100 }],
          users := [{ id := 1, remaining := 900, used := 100 }] } 1 80 =
      some ({ tokens := [{ sampleToken with remainQuota := 820, usedQuota := 180 }],
              users := [{ id := 1, remaining := 820, used := 180 }] }, none) ∧
    ¬ ((1000:Int) - 820 = 80) := by
  decide

/-- Claim C4 (amended): for a present, non-unlimited credential with at least
    100 remaining on both counters, PreConsume(id, 100) followed by
    PostConsume(id, -20) — the post argument being the signed difference
    actual minus estimated, here 80 - 100 — leaves both the credential and
    the account at a net debit of exactly 80: the 20 over-estimate is
    credited back. -/
theorem preThenPost_reconciles (s : DBState) (id : Int) (t : Token) (u : UserRow)
    (hid : id ≠ 0) (ht : findToken s id = some t) (hut : t.unlimitedQuota = false)
    (hu : findUser s t.userId = some u)
    (h1 : 100 ≤ t.remainQuota) (h2 : 100 ≤ u.remaining) :
    ∃ s1 s2 t2 u2, PreConsumeTokenQuota s id 100 = (s1, none) ∧
      PostConsumeTokenQuota s1 id (-20) = some (s2, none) ∧
      findToken s2 id = some t2 ∧ findUser s2 t.userId = some u2 ∧
      t2.remainQuota = t.remainQuota - 80 ∧ t2.usedQuota = t.usedQuota + 80 ∧
      u2.remaining = u.remaining - 80 ∧ u2.used = u.used + 80 := by
  have hget : GetTokenById s id = (some t, none) := by
    unfold GetTokenById
    rw [if_neg hid, ht]
  have huq : GetUserQuota s t.userId = Except.ok u.remaining := by
    unfold GetUserQuota
    rw [hu]
  have c2 : ¬ (t.unlimitedQuota = false ∧ t.remainQuota < (100:Int)) := by
    rintro ⟨-, h⟩
    omega
  have c3 : ¬ u.remaining < (100:Int) := by omega
  have hpre : PreConsumeTokenQuota s id 100 =
      ({ tokens := adjustTokenRows s.tokens id (-100) 100,
         users := adjustUserRows s.users t.userId (-100) 100 }, none) := by
    unfold PreConsumeTokenQuota
    rw [if_neg (by norm_num : ¬ (100:Int) < 0), hget]
    simp only [huq, if_neg c2, if_neg c3, hut, DecreaseTokenQuota, DecreaseUserQuota,
      if_neg (by norm_num : ¬ (100:Int) < 0), if_true]
    exact if_neg (by rintro ⟨-, h⟩; omega)
  have hft1 : findToken { tokens := adjustTokenRows s.tokens id (-100) 100,
                          users := adjustUserRows s.users t.userId (-100) 100 } id =
      some { t with remainQuota := t.remainQuota + -100, usedQuota := t.usedQuota + 100 } := by
    have h := findToken_adjust s id (-100) 100
    rw [ht] at h
    exact h
  have hpost := postConsume_eval_limited
    { tokens := adjustTokenRows s.tokens id (-100) 100,
      users := adjustUserRows s.users t.userId (-100) 100 } id (-20)
    { t with remainQuota := t.remainQuota + -100, usedQuota := t.usedQuota + 100 }
    hid hft1 hut
  have hft2 : findToken
      { tokens := adjustTokenRows (adjustTokenRows s.tokens id (-100) 100) id (-(-20)) (-20),
        users := adjustUserRows (adjustUserRows s.users t.userId (-100) 100) t.userId
          (-(-20)) (-20) } id =
      some { t with remainQuota := t.remainQuota + -100 + -(-20),
                    usedQuota := t.usedQuota + 100 + -20 } := by
    have h := findToken_adjust
      { tokens := adjustTokenRows s.tokens id (-100) 100,
        users := adjustUserRows s.users t.userId (-100) 100 } id (-(-20)) (-20)
    rw [hft1] at h
    exact h
  have hu1 : findUser { tokens := adjustTokenRows (adjustTokenRows s.tokens id (-100) 100)
                          id (-(-20)) (-20),
                        users := s.users } t.userId = some u := hu
  have hfu1 := findUser_adjust s.users
    (adjustTokenRows (adjustTokenRows s.tokens id (-100) 100) id (-(-20)) (-20))
    t.userId (-100) 100
  rw [hu1] at hfu1
  have hfu2 := findUser_adjust (adjustUserRows s.users t.userId (-100) 100)
    (adjustTokenRows (adjustTokenRows s.tokens id (-100) 100) id (-(-20)) (-20))
    t.userId (-(-20)) (-20)
  rw [hfu1] at hfu2
  refine ⟨_, _, _, _, hpre, hpost, hft2, hfu2, ?_, ?_, ?_, ?_⟩
  · show t.remainQuota + -100 + -(-20) = t.remainQuota - 80
    omega
  · show t.usedQuota + 100 + -20 = t.usedQuota + 80
    omega
  · show u.remaining + -100 + -(-20) = u.remaining - 80
    omega
  · show u.used + 100 + -20 = u.used + 80
    omega

/-- Claim C4 witness: the amended round trip evaluated on the concrete store
    with credential 1 and account 1 at remaining 1000. -/
theorem preThenPost_reconciles_witness :
    findToken sampleState 1 = some sampleToken ∧
    (∃ s1 s2 t2 u2, PreConsumeTokenQuota sampleState 1 100 = (s1, none) ∧
      PostConsumeTokenQuota s1 1 (-20) = some (s2, none) ∧
      findToken s2 1 = some t2 ∧ findUser s2 sampleToken.userId = some u2 ∧
      t2.remainQuota = sampleToken.remainQuota - 80 ∧
      t2.usedQuota = sampleToken.usedQuota + 80 ∧
      u2.remaining = 1000 - 80 ∧ u2.used = 0 + 80) :=
  ⟨by decide,
    preThenPost_reconciles sampleState 1 sampleToken { id := 1, remaining := 1000, used := 0 }
      (by decide) (by decide) (by decide) (by decide) (by decide) (by decide)⟩

/-- Claim C5: PostConsume applies the signed adjustment to the account and to
    the credential (the account update runs first in the code; the credential
    update is skipped when the credential is unlimited): a positive
    actualCost lowers both remaining counters by actualCost and raises both
    used counters by actualCost, a negative actualCost credits the same
    amounts back, and an actualCost of zero leaves the whole store
    unchanged. -/
theorem postConsume_signed (s : DBState) (id q : Int) (t : Token) (u : UserRow)
    (hid : id ≠ 0) (ht : findToken s id = some t) (hu : findUser s t.userId = some u) :
    ∃ s', PostConsumeTokenQuota s id q = some (s', none) ∧
      (∃ u', findUser s' t.userId = some u' ∧
        u'.remaining = u.remaining - q ∧ u'.used = u.used + q) ∧
      (t.unlimitedQuota = true → s'.tokens = s.tokens) ∧
      (t.unlimitedQuota = false → ∃ t', findToken s' id = some t' ∧
        t'.remainQuota = t.remainQuota - q ∧ t'.usedQuota = t.usedQuota + q) ∧
      (q = 0 → s' = s) := by
  cases hut : t.unlimitedQuota with
  | false =>
    refine ⟨_, postConsume_eval_limited s id q t hid ht hut, ?_, ?_, ?_, ?_⟩
    · have hu1 : findUser { tokens := adjustTokenRows s.tokens id (-q) q,
                            users := s.users } t.userId = some u := hu
      have h := findUser_adjust s.users (adjustTokenRows s.tokens id (-q) q)
        t.userId (-q) q
      rw [hu1] at h
      exact ⟨_, h, by show u.remaining + -q = u.remaining - q; omega, rfl⟩
    · intro hcontra
      exact Bool.noConfusion hcontra
    · intro _
      have h := findToken_adjust s id (-q) q
      rw [ht] at h
      exact ⟨_, h, by show t.remainQuota + -q = t.remainQuota - q; omega, rfl⟩
    · intro h0
      subst h0
      have h1 : adjustTokenRows s.tokens id (-(0:Int)) 0 = s.tokens := by
        unfold adjustTokenRows
        exact map_ite_id _ _ (fun a => by simp) s.tokens
      have h2 : adjustUserRows s.users t.userId (-(0:Int)) 0 = s.users := by
        unfold adjustUserRows
        exact map_ite_id _ _ (fun a => by simp) s.users
      show ({ tokens := adjustTokenRows s.tokens id (-0) 0,
              users := adjustUserRows s.users t.userId (-0) 0 } : DBState) = s
      rw [h1, h2]
  | true =>
    refine ⟨_, postConsume_eval_unlimited s id q t hid ht hut, ?_, ?_, ?_, ?_⟩
    · have hu1 : findUser { tokens := s.tokens, users := s.users } t.userId = some u := hu
      have h := findUser_adjust s.users s.tokens t.userId (-q) q
      rw [hu1] at h
      exact ⟨_, h, by show u.remaining + -q = u.remaining - q; omega, rfl⟩
    · intro _
      rfl
    · intro hcontra
      exact Bool.noConfusion hcontra
    · intro h0
      subst h0
      have h2 : adjustUserRows s.users t.userId (-(0:Int)) 0 = s.users := by
        unfold adjustUserRows
        exact map_ite_id _ _ (fun a => by simp) s.users
      show ({ s with users := adjustUserRows s.users t.userId (-0) 0 } : DBState) = s
      rw [h2]

/-- Claim C5 witness: the signed adjustment evaluated on the concrete store
    with credential 1 and account 1 at remaining 1000, actualCost -30 (a
    credit). -/
theorem postConsume_signed_witness :
    findToken sampleState 1 = some sampleToken ∧
    (∃ s', PostConsumeTokenQuota sampleState 1 (-30) = some (s', none) ∧
      (∃ u', findUser s' sampleToken.userId = some u' ∧
        u'.remaining = 1000 - (-30) ∧ u'.used = 0 + (-30)) ∧
      (sampleToken.unlimitedQuota = true → s'.tokens = sampleState.tokens) ∧
      (sampleToken.unlimitedQuota = false → ∃ t', findToken s' 1 = some t' ∧
        t'.remainQuota = sampleToken.remainQuota - (-30) ∧
        t'.usedQuota = sampleToken.usedQuota + (-30)) ∧
      ((-30:Int) = 0 → s' = sampleState)) :=
  ⟨by decide,
    postConsume_signed sampleState 1 (-30) sampleToken { id := 1, remaining := 1000, used := 0 }
      (by decide) (by decide) (by decide)⟩

/-- Claim C9: for a nonempty key whose credential is found and enabled, when
    the credential is expired (expiresAt not -1 and before now) or, failing
    that, exhausted (not unlimited and remaining at most 0), validation
    denies the request with the matching error for both outcomes of the
    status persist: when the persist succeeds the stored row carries the
    Expired/Exhausted status, and when it fails the store is unchanged (the
    failure is only logged and never prevents the denial). -/
theorem validate_denies_expired_exhausted (s : DBState) (key : String) (now : Int)
    (t : Token) (hk : key ≠ "") (ht : CacheGetTokenByKey s key = some t)
    (hen : t.status = TokenStatusEnabled) (hfid : findToken s t.id = some t) :
    ((t.expiredTime ≠ -1 ∧ t.expiredTime < now) →
      ∀ persistOk, (ValidateUserToken s key now persistOk).1 = .error .tokenExpired ∧
        (persistOk = true →
          ∃ t', findToken (ValidateUserToken s key now persistOk).2 t.id = some t' ∧
            t'.status = TokenStatusExpired) ∧
        (persistOk = false → (ValidateUserToken s key now persistOk).2 = s)) ∧
    (¬ (t.expiredTime ≠ -1 ∧ t.expiredTime < now) →
      t.unlimitedQuota = false → t.remainQuota ≤ 0 →
      ∀ persistOk, (ValidateUserToken s key now persistOk).1 = .error .tokenExhausted ∧
        (persistOk = true →
          ∃ t', findToken (ValidateUserToken s key now persistOk).2 t.id = some t' ∧
            t'.status = TokenStatusExhausted) ∧
        (persistOk = false → (ValidateUserToken s key now persistOk).2 = s)) := by
  have hfid' : s.tokens.find? (fun r => r.id == t.id) = some t := hfid
  constructor
  · intro hexp persistOk
    have hval : ValidateUserToken s key now persistOk =
        (.error .tokenExpired,
          (SelectUpdate s { t with status := TokenStatusExpired } persistOk).1) := by
      unfold ValidateUserToken
      rw [if_neg hk, ht]
      simp [hen, hexp]
    refine ⟨by rw [hval], ?_, ?_⟩
    · intro hok
      subst hok
      rw [hval]
      unfold SelectUpdate
      rw [if_pos rfl]
      have h := find?_map_ite (fun r => r.id == t.id)
        (fun r => { r with accessedTime := t.accessedTime, status := TokenStatusExpired })
        (fun _ => rfl) s.tokens
      rw [hfid'] at h
      exact ⟨_, h, rfl⟩
    · intro hok
      subst hok
      rw [hval]
      unfold SelectUpdate
      rw [if_neg Bool.false_ne_true]
  · intro hnexp hul hle persistOk
    have hval : ValidateUserToken s key now persistOk =
        (.error .tokenExhausted,
          (SelectUpdate s { t with status := TokenStatusExhausted } persistOk).1) := by
      unfold ValidateUserToken
      rw [if_neg hk, ht]
      simp [hen, hnexp, hul, hle]
    refine ⟨by rw [hval], ?_, ?_⟩
    · intro hok
      subst hok
      rw [hval]
      unfold SelectUpdate
      rw [if_pos rfl]
      have h := find?_map_ite (fun r => r.id == t.id)
        (fun r => { r with accessedTime := t.accessedTime, status := TokenStatusExhausted })
        (fun _ => rfl) s.tokens
      rw [hfid'] at h
      exact ⟨_, h, rfl⟩
    · intro hok
      subst hok
      rw [hval]
      unfold SelectUpdate
      rw [if_neg Bool.false_ne_true]

/-- Claim C9 witness: the expired credential (expiry 10, now 100) and the
    exhausted credential (remaining 0), each denied under both persist
    outcomes, with the persisted status visible on success and the store
    untouched on failure. -/
theorem validate_denies_witness :
    (ValidateUserToken expiredState "k4" 100 true).1 = .error .tokenExpired ∧
    (∃ t', findToken (ValidateUserToken expiredState "k4" 100 true).2 expiredToken.id =
        some t' ∧ t'.status = TokenStatusExpired) ∧
    (ValidateUserToken expiredState "k4" 100 false).1 = .error .tokenExpired ∧
    (ValidateUserToken expiredState "k4" 100 false).2 = expiredState ∧
    (ValidateUserToken exhaustedState "k5" 100 true).1 = .error .tokenExhausted ∧
    (∃ t', findToken (ValidateUserToken exhaustedState "k5" 100 true).2 exhaustedToken.id =
        some t' ∧ t'.status = TokenStatusExhausted) ∧
    (ValidateUserToken exhaustedState "k5" 100 false).1 = .error .tokenExhausted ∧
    (ValidateUserToken exhaustedState "k5" 100 false).2 = exhaustedState := by
  have h1 := validate_denies_expired_exhausted expiredState "k4" 100 expiredToken
    (by decide) (by decide) (by decide) (by decide)
  have h2 := validate_denies_expired_exhausted exhaustedState "k5" 100 exhaustedToken
    (by decide) (by decide) (by decide) (by decide)
  exact ⟨(h1.1 (by decide) true).1, (h1.1 (by decide) true).2.1 rfl,
    (h1.1 (by decide) false).1, (h1.1 (by decide) false).2.2 rfl,
    (h2.2 (by decide) (by decide) (by decide) true).1,
    (h2.2 (by decide) (by decide) (by decide) true).2.1 rfl,
    (h2.2 (by decide) (by decide) (by decide) false).1,
    (h2.2 (by decide) (by decide) (by decide) false).2.2 rfl⟩

/-- Claim C10 counterexample: for tokenId 0 the lookup also errors, but there
    GetTokenById returns a nil credential pointer and PostConsumeTokenQuota
    dereferences it: the call panics (modelled none) instead of proceeding
    with the zero-value credential. -/
theorem postConsume_nil_token_counterexample :
    (GetTokenById emptyDB 0).2 = some .emptyId ∧
    (GetTokenById emptyDB 0).1 = none ∧
    PostConsumeTokenQuota emptyDB 0 5 = none := by
  decide

/-- Claim C10 (amended): for every nonzero tokenId whose credential is absent
    (the lookup reports record-not-found), PostConsume does not propagate the
    lookup error: it succeeds, proceeding with the zero-value credential
    (owner id 0, not unlimited), leaves the tokens table unchanged (the
    relative update matches no row) and applies the account adjustment to
    account id 0. -/
theorem postConsume_missing_token (s : DBState) (id q : Int)
    (hid : id ≠ 0) (ht : findToken s id = none) :
    (GetTokenById s id).2 = some .recordNotFound ∧
    ∃ s', PostConsumeTokenQuota s id q = some (s', none) ∧
      s'.tokens = s.tokens ∧ s'.users = adjustUserRows s.users 0 (-q) q := by
  have hget : GetTokenById s id = (some (emptyTokenRow id), some .recordNotFound) := by
    unfold GetTokenById
    rw [if_neg hid, ht]
  have htok : adjustTokenRows s.tokens id (-q) q = s.tokens := by
    unfold adjustTokenRows
    exact map_ite_of_find?_none _ _ s.tokens ht
  have hpost : PostConsumeTokenQuota s id q =
      some ({ tokens := adjustTokenRows s.tokens id (-q) q,
              users := adjustUserRows s.users 0 (-q) q }, none) := by
    unfold PostConsumeTokenQuota
    rw [hget]
    by_cases hq : q > 0
    · simp [hq, DecreaseUserQuota, DecreaseTokenQuota, emptyTokenRow,
        show ¬ q < 0 by omega]
    · simp [hq, IncreaseUserQuota, IncreaseTokenQuota, emptyTokenRow, neg_neg,
        show ¬ -q < 0 by omega]
  constructor
  · rw [hget]
  · exact ⟨_, hpost, htok, rfl⟩

/-- Claim C10 witness: the amended claim evaluated at the absent credential
    id 9 on the sample store, with an adjustment of 5. -/
theorem postConsume_missing_token_witness :
    findToken sampleState 9 = none ∧
    ((GetTokenById sampleState 9).2 = some .recordNotFound ∧
     ∃ s', PostConsumeTokenQuota sampleState 9 5 = some (s', none) ∧
       s'.tokens = sampleState.tokens ∧
       s'.users = adjustUserRows sampleState.users 0 (-5) 5) :=
  ⟨by decide, postConsume_missing_token sampleState 9 5 (by decide) (by decide)⟩

/-- Claim C6 (refuted by the code, a code bug): when no accumulator cell
    exists for the credential of the event taken from the intake channel, the
    consumer stores a fresh cell but then applies atomic.AddInt32 through the
    type assertion on the interface value returned by the failed Load, which
    is nil: the goroutine panics (none) and the delta never reaches the fresh
    cell.  When a cell already exists the delta is added to it as the claim
    says. -/
theorem consumeEvent_first_touch_panics :
    consumeEvent [] (mkQuotaToken 1 5) = none ∧
    consumeEvent [(1, 0)] (mkQuotaToken 1 5) = some [(1, 5)] := by
  decide

/-- Claim C7 (refuted by the code, a code bug): batchConsumeTokenQuota closes
    the failure channel right after spawning the per-entry tasks; the
    WaitGroup it increments is never waited on.  Under the schedule where a
    failing task sends after the close, the send hits a closed channel and
    panics (none); only under the favourable schedule where every failing
    send precedes the close does the call return exactly the failed
    entries. -/
theorem batchConsume_close_race :
    batchConsumeTokenQuota [mkQuotaToken 1 5] (fun _ => true) (fun _ => true) =
      some [mkQuotaToken 1 5] ∧
    batchConsumeTokenQuota [mkQuotaToken 1 5] (fun _ => true) (fun _ => false) = none := by
  decide

/-- Claim C8 (refuted by the code, a code bug): re-inserting a failed entry
    uses sync.Map.Store, which replaces any accumulator cell already present
    for that credential: a post-drain cell holding delta 7 is overwritten by
    the failed delta 5, leaving 5 pending where the invariant requires 12.
    Moreover the only code path that could create such a post-drain cell, the
    intake consumer on an empty map, itself panics (none). -/
theorem requeue_overwrites_concurrent_delta :
    requeueFailed [(1, 7)] [mkQuotaToken 1 5] = [(1, 5)] ∧
    consumeEvent [] (mkQuotaToken 1 7) = none ∧
    ¬ ((5:Int) = 7 + 5) := by
  decide

end OneApi
